import Mathlib

/-!
Verification of the k8s-kv bucket store (`kv/kv.go`).

Embedding conventions:
* Go strings and `[]byte` values are both byte sequences; we embed both as
  `List Nat` (`GoStr`).  Go's `string(value)` / `[]byte(val)` conversions are
  then the identity, which is faithful: Go strings are arbitrary byte strings.
* Go maps (`map[string]string`) are association lists with Go map semantics
  (`mapGet` / `mapSet` / `mapDel`).  A `nil` Go map is `Option`'s `none`
  (reads and deletes on a nil map are fine in Go; an assignment panics).
* The injected `ConfigMapInterface` backend is a record of state-passing
  functions over an abstract state `σ`.
* Every Go `(result, error)` pair becomes a `Res` value: `ok`, `error`, or
  `nilMapPanic` for the runtime panic of assigning into a nil map.
-/

/-- Go strings and byte slices: arbitrary byte sequences. -/
abbrev GoStr := List Nat

/-- A (non-nil) Go `map[string]string`, as an association list. -/
abbrev GoMap := List (GoStr × GoStr)

/-- Byte string "BUCKET". -/
def strBUCKET : GoStr := [66, 85, 67, 75, 69, 84]

/-- Byte string "APP". -/
def strAPP : GoStr := [65, 80, 80]

/-- Byte string "OWNER". -/
def strOWNER : GoStr := [79, 87, 78, 69, 82]

/-- Byte string "K8S-KV". -/
def strK8SKV : GoStr := [75, 56, 83, 45, 75, 86]

/-- Go map read `m[key]`: first matching entry. -/
def mapGet (m : GoMap) (key : GoStr) : Option GoStr :=
  match m with
  | [] => none
  | (k, v) :: rest => if k = key then some v else mapGet rest key

/-- Go map assignment `m[key] = val` on a non-nil map. -/
def mapSet (m : GoMap) (key val : GoStr) : GoMap :=
  match m with
  | [] => [(key, val)]
  | (k, v) :: rest => if k = key then (key, val) :: rest else (k, v) :: mapSet rest key val

/-- Go `delete(m, key)` on a non-nil map. -/
def mapDel (m : GoMap) (key : GoStr) : GoMap :=
  match m with
  | [] => []
  | (k, v) :: rest => if k = key then mapDel rest key else (k, v) :: mapDel rest key

/-- Go `strings.HasPrefix(s, pre)`: does `s` start with `pre`? -/
def goHasPrefix (s pre : GoStr) : Bool :=
  List.isPrefixOf pre s

/-- The loop body of `List`: collect the entries whose key has the prefix. -/
def filterPrefix (m : GoMap) (pre : GoStr) : GoMap :=
  match m with
  | [] => []
  | (k, v) :: rest =>
      if goHasPrefix k pre then (k, v) :: filterPrefix rest pre else filterPrefix rest pre

/-- Read `d[key]` where `d` may be a nil Go map (nil reads yield "missing"). -/
def dataGet (d : Option GoMap) (key : GoStr) : Option GoStr :=
  match d with
  | none => none
  | some m => mapGet m key

/-- Go `delete(d, key)` where `d` may be a nil Go map (a no-op on nil). -/
def dataDel (d : Option GoMap) (key : GoStr) : Option GoMap :=
  match d with
  | none => none
  | some m => some (mapDel m key)

/-- Ranging over `d` with the prefix filter, where `d` may be a nil Go map. -/
def listPrefix (d : Option GoMap) (pre : GoStr) : GoMap :=
  match d with
  | none => []
  | some m => filterPrefix m pre

/-- The Go error values that appear in the code: `kv.ErrNotFound`, a backend
error satisfying `apierrors.IsNotFound`, and any other backend error
(tagged by a code so distinct errors stay distinct). -/
inductive GoError where
  | errNotFound : GoError
  | backendNotFound : GoError
  | backendOther : Nat → GoError
deriving DecidableEq

/-- The check `apierrors.IsNotFound(err)`. -/
def isNotFoundErr : GoError → Bool
  | .backendNotFound => true
  | _ => false

/-- Outcome of a Go call: a value, an error, or a runtime panic caused by
assigning into a nil map. -/
inductive Res (α : Type) where
  | ok : α → Res α
  | error : GoError → Res α
  | nilMapPanic : Res α
deriving DecidableEq

/-- The `v1.ConfigMap` record, restricted to the fields the code touches: name,
labels, and the data mapping (which may be nil). -/
structure ConfigMap where
  name : GoStr
  labels : GoMap
  data : Option GoMap
deriving DecidableEq

/-- The `ConfigMapInterface` backend, as state-passing functions
over a backend state `σ`. -/
structure Backend (σ : Type) where
  get : σ → GoStr → Res ConfigMap × σ
  create : σ → ConfigMap → Res ConfigMap × σ
  update : σ → ConfigMap → Res ConfigMap × σ
  delete : σ → GoStr → Res Unit × σ

/-- The `KV` struct (the mutex is modelled by running operations atomically;
see the serialization theorem). -/
structure KV (σ : Type) where
  app : GoStr
  bucket : GoStr
  implementer : Backend σ

/-- Construct the `KV` struct literal from `New`. -/
def mkKV {σ : Type} (b : Backend σ) (app bucket : GoStr) : KV σ :=
  { app := app, bucket := bucket, implementer := b }

/-- Go `labels.init`: the empty label map. -/
def labelsInit : GoMap := []

/-- Go `labels.set`. -/
def labelsSet (lbs : GoMap) (key val : GoStr) : GoMap :=
  mapSet lbs key val

/-- Function `newConfigMapsObject`: build the labelled empty config map and ask the
backend to create it, returning whatever the backend returns. -/
def KV.newConfigMapsObject {σ : Type} (k : KV σ) (s : σ) : Res ConfigMap × σ :=
  let lbs := labelsSet (labelsSet (labelsSet labelsInit strBUCKET k.bucket) strAPP k.app)
      strOWNER strK8SKV
  let cfgMap : ConfigMap := { name := k.bucket, labels := lbs, data := some [] }
  match k.implementer.create s cfgMap with
  | (.ok cm, s') => (.ok cm, s')
  | (.error e, s') => (.error e, s')
  | (.nilMapPanic, s') => (.nilMapPanic, s')

/-- Function `getMap`: fetch the bucket's config map; on the not-found condition create
it; otherwise propagate the error; normalize a nil data map on the found
path. -/
def KV.getMap {σ : Type} (k : KV σ) (s : σ) : Res ConfigMap × σ :=
  match k.implementer.get s k.bucket with
  | (.error e, s') =>
      if isNotFoundErr e then k.newConfigMapsObject s' else (.error e, s')
  | (.nilMapPanic, s') => (.nilMapPanic, s')
  | (.ok cfgMap, s') =>
      if cfgMap.data = none then (.ok { cfgMap with data := some [] }, s')
      else (.ok cfgMap, s')

/-- Function `saveMap`: write the whole record back via the backend update. -/
def KV.saveMap {σ : Type} (k : KV σ) (s : σ) (cfgMap : ConfigMap) : Res Unit × σ :=
  match k.implementer.update s cfgMap with
  | (.ok _, s') => (.ok (), s')
  | (.error e, s') => (.error e, s')
  | (.nilMapPanic, s') => (.nilMapPanic, s')

/-- Method `Put`: resolve the record, set `data[key] = value` (a panic if the data
map is nil), write the record back. -/
def KV.Put {σ : Type} (k : KV σ) (s : σ) (key value : GoStr) : Res Unit × σ :=
  match k.getMap s with
  | (.error e, s') => (.error e, s')
  | (.nilMapPanic, s') => (.nilMapPanic, s')
  | (.ok m, s') =>
      match m.data with
      | none => (.nilMapPanic, s')
      | some d => k.saveMap s' { m with data := some (mapSet d key value) }

/-- Method `Get`: resolve the record, look the key up, `ErrNotFound` when absent. -/
def KV.Get {σ : Type} (k : KV σ) (s : σ) (key : GoStr) : Res GoStr × σ :=
  match k.getMap s with
  | (.error e, s') => (.error e, s')
  | (.nilMapPanic, s') => (.nilMapPanic, s')
  | (.ok m, s') =>
      match dataGet m.data key with
      | none => (.error .errNotFound, s')
      | some val => (.ok val, s')

/-- Method `Delete`: resolve the record, delete the key, write the record back. -/
def KV.Delete {σ : Type} (k : KV σ) (s : σ) (key : GoStr) : Res Unit × σ :=
  match k.getMap s with
  | (.error e, s') => (.error e, s')
  | (.nilMapPanic, s') => (.nilMapPanic, s')
  | (.ok m, s') => k.saveMap s' { m with data := dataDel m.data key }

/-- Method `List`: resolve the record and return the entries whose key starts with
the prefix, as a fresh mapping. -/
def KV.List {σ : Type} (k : KV σ) (s : σ) (pre : GoStr) : Res GoMap × σ :=
  match k.getMap s with
  | (.error e, s') => (.error e, s')
  | (.nilMapPanic, s') => (.nilMapPanic, s')
  | (.ok m, s') => (.ok (listPrefix m.data pre), s')

/-- Method `Teardown`: delete the bucket's config map from the backend. -/
def KV.Teardown {σ : Type} (k : KV σ) (s : σ) : Res Unit × σ :=
  k.implementer.delete s k.bucket

/-- Function `New`: build the struct and run `getMap` once; fail if it fails. -/
def New {σ : Type} (b : Backend σ) (app bucket : GoStr) (s : σ) : Res (KV σ) × σ :=
  let kv := mkKV b app bucket
  match kv.getMap s with
  | (.ok _, s') => (.ok kv, s')
  | (.error e, s') => (.error e, s')
  | (.nilMapPanic, s') => (.nilMapPanic, s')

/-- Modelled from the spec: the backend capability contract of section 6,
instantiated as a faithful single-record in-memory store (the backend itself
is an external collaborator, not code of this repository).  The state is the
bucket's record or `none` when absent; `fetch` returns exactly what the last
`create`/`update` stored (full-replace semantics), fetch of an absent or
differently-named record reports the not-found condition, `create` and
`update` store their argument and return it, `delete` removes the record. -/
def memBackend : Backend (Option ConfigMap) where
  get s name :=
    match s with
    | none => (.error .backendNotFound, none)
    | some cm =>
        if cm.name = name then (.ok cm, some cm) else (.error .backendNotFound, some cm)
  create _ cm := (.ok cm, some cm)
  update _ cm := (.ok cm, some cm)
  delete _ _ := (.ok (), none)

/-- Backend state for the scripted backend: a fixed fetch outcome, a fixed
create outcome, and a counter of create calls. -/
structure ScriptState where
  fetchRes : Res ConfigMap
  createRes : Res ConfigMap
  createCalls : Nat
deriving DecidableEq

/-- Modelled from the spec: a backend (an external collaborator) whose fetch
and create return scripted outcomes, counting create calls, used to observe
error propagation and the record handed back by create. -/
def scriptedBackend : Backend ScriptState where
  get s _ := (s.fetchRes, s)
  create s _ := (s.createRes, { s with createCalls := s.createCalls + 1 })
  update s cm := (.ok cm, s)
  delete s _ := (.ok (), s)

/-- The three creation-time labels. -/
def mkLabels (app bucket : GoStr) : GoMap :=
  labelsSet (labelsSet (labelsSet labelsInit strBUCKET bucket) strAPP app) strOWNER strK8SKV

/-- The record `newConfigMapsObject` synthesizes before calling create. -/
def freshCM (app bucket : GoStr) : ConfigMap :=
  { name := bucket, labels := mkLabels app bucket, data := some [] }

/-! Helper lemmas about the map operations. -/

theorem mapGet_mapSet_self (m : GoMap) (key val : GoStr) :
    mapGet (mapSet m key val) key = some val := by
  induction m with
  | nil => simp [mapSet, mapGet]
  | cons hd tl ih =>
      obtain ⟨k, v⟩ := hd
      by_cases hk : k = key
      · subst hk; simp [mapSet, mapGet]
      · simp [mapSet, mapGet, hk, ih]

theorem mapGet_mapSet_ne (m : GoMap) (key val k2 : GoStr) (h : k2 ≠ key) :
    mapGet (mapSet m key val) k2 = mapGet m k2 := by
  induction m with
  | nil => simp [mapSet, mapGet, Ne.symm h]
  | cons hd tl ih =>
      obtain ⟨k, v⟩ := hd
      by_cases hk : k = key
      · subst hk; simp [mapSet, mapGet, Ne.symm h]
      · simp [mapSet, mapGet, hk, ih]

theorem mapDel_of_absent (m : GoMap) (key : GoStr) (h : mapGet m key = none) :
    mapDel m key = m := by
  induction m with
  | nil => simp [mapDel]
  | cons hd tl ih =>
      obtain ⟨k, v⟩ := hd
      by_cases hk : k = key
      · simp [mapGet, hk] at h
      · simp [mapGet, hk] at h
        simp [mapDel, hk, ih h]

theorem mapGet_filterPrefix (m : GoMap) (pre key : GoStr) :
    mapGet (filterPrefix m pre) key =
      if goHasPrefix key pre then mapGet m key else none := by
  induction m with
  | nil => simp [filterPrefix, mapGet]
  | cons hd tl ih =>
      obtain ⟨k, v⟩ := hd
      by_cases hk : k = key
      · subst hk
        by_cases hp : goHasPrefix k pre = true
        · simp [filterPrefix, hp, mapGet, ih]
        · simp [filterPrefix, hp, mapGet, ih, Bool.of_not_eq_true hp]
      · by_cases hp : goHasPrefix k pre = true
        · simp [filterPrefix, hp, mapGet, hk, ih]
        · simp [filterPrefix, hp, mapGet, hk, ih]

theorem goHasPrefix_nil (s : GoStr) : goHasPrefix s [] = true := by
  simp [goHasPrefix, List.isPrefixOf]

/-! Helper lemmas about resolve-or-create over the in-memory backend. -/

theorem getMap_memBackend (app bucket : GoStr) (s : Option ConfigMap) :
    (mkKV memBackend app bucket).getMap s =
      match s with
      | none => (.ok (freshCM app bucket), some (freshCM app bucket))
      | some cm =>
          if cm.name = bucket then
            (.ok { cm with data := some (cm.data.getD []) }, some cm)
          else (.ok (freshCM app bucket), some (freshCM app bucket))
    := by
  cases s with
  | none => rfl
  | some cm =>
      obtain ⟨n, l, dat⟩ := cm
      by_cases h : n = bucket
      · cases dat <;> simp [KV.getMap, mkKV, memBackend, h]
      · simp [KV.getMap, mkKV, memBackend, h, isNotFoundErr, KV.newConfigMapsObject,
          freshCM, mkLabels, labelsSet, labelsInit]

theorem getMap_memBackend_ok (app bucket : GoStr) (s : Option ConfigMap) :
    ∃ m s2 d, (mkKV memBackend app bucket).getMap s = (.ok m, s2) ∧
      m.data = some d ∧ m.name = bucket := by
  have h := getMap_memBackend app bucket s
  cases s with
  | none => exact ⟨freshCM app bucket, some (freshCM app bucket), [], h, rfl, rfl⟩
  | some cm =>
      by_cases hn : cm.name = bucket
      · exact ⟨{ cm with data := some (cm.data.getD []) }, some cm, cm.data.getD [],
          by simpa [hn] using h, rfl, hn⟩
      · exact ⟨freshCM app bucket, some (freshCM app bucket), [],
          by simpa [hn] using h, rfl, rfl⟩

theorem getMap_memBackend_found (app bucket n : GoStr) (l d : GoMap)
    (hn : n = bucket) :
    (mkKV memBackend app bucket).getMap (some ⟨n, l, some d⟩) =
      (.ok ⟨n, l, some d⟩, some ⟨n, l, some d⟩) := by
  simpa [hn] using getMap_memBackend app bucket (some ⟨n, l, some d⟩)

theorem put_memBackend (app bucket key value : GoStr) (s : Option ConfigMap) :
    ∃ m d, m.data = some d ∧ m.name = bucket ∧
      ((mkKV memBackend app bucket).getMap s).1 = .ok m ∧
      KV.Put (mkKV memBackend app bucket) s key value =
        (.ok (), some { m with data := some (mapSet d key value) }) := by
  obtain ⟨m, s2, d, hg, hd, hn⟩ := getMap_memBackend_ok app bucket s
  refine ⟨m, d, hd, hn, by simp [hg], ?_⟩
  simp only [KV.Put, hg, hd, KV.saveMap]
  simp [mkKV, memBackend]

/-! Claim theorems. -/

/-- Claim C1: for every key and byte value, `Put(k, v)` followed by `Get(k)`
on the same `KV` (in-memory faithful backend, no other writers) succeeds and
returns exactly `v`, byte for byte, for any initial backend state — covering
the empty value and arbitrary byte values. -/
theorem put_then_get_roundtrip (app bucket key value : GoStr) (s : Option ConfigMap) :
    (KV.Put (mkKV memBackend app bucket) s key value).1 = .ok () ∧
    (KV.Get (mkKV memBackend app bucket)
        (KV.Put (mkKV memBackend app bucket) s key value).2 key).1 = .ok value := by
  obtain ⟨m, d, hd, hn, hg1, hput⟩ := put_memBackend app bucket key value s
  refine ⟨by simp [hput], ?_⟩
  rw [hput]
  have hfound := getMap_memBackend_found app bucket m.name m.labels (mapSet d key value) hn
  simp only [KV.Get, hfound]
  simp [dataGet, mapGet_mapSet_self]

/-- Claim C2: over any backend, when resolve-or-create yields a record in
which the key is absent, `Get` fails with exactly `ErrNotFound` (and, the
result being an error, returns no value). -/
theorem get_absent_notFound (σ : Type) (b : Backend σ) (app bucket key : GoStr)
    (s s2 : σ) (m : ConfigMap)
    (hg : (mkKV b app bucket).getMap s = (.ok m, s2))
    (hk : dataGet m.data key = none) :
    KV.Get (mkKV b app bucket) s key = (.error .errNotFound, s2) := by
  simp only [KV.Get, hg, hk]

/-- Witness for C2: a fresh empty bucket, key `[97]` never written. -/
theorem get_absent_notFound_witness :
    KV.Get (mkKV memBackend [] []) none [97] = (.error .errNotFound, some (freshCM [] [])) :=
  get_absent_notFound (Option ConfigMap) memBackend [] [] [97] none
    (some (freshCM [] [])) (freshCM [] []) rfl rfl

/-- Claim C3: over any backend, `List(p)` returns exactly the stored entries
whose key starts with `p` (each value byte for byte), `List("")` returns all
entries, and `List` on an empty bucket returns the empty mapping with no
error. -/
theorem list_prefix_correct (σ : Type) (b : Backend σ) (app bucket pre : GoStr)
    (s s2 : σ) (m : ConfigMap)
    (hg : (mkKV b app bucket).getMap s = (.ok m, s2)) :
    KV.List (mkKV b app bucket) s pre = (.ok (listPrefix m.data pre), s2) ∧
    (∀ key, mapGet (listPrefix m.data pre) key =
        if goHasPrefix key pre then dataGet m.data key else none) ∧
    (∀ key, mapGet (listPrefix m.data []) key = dataGet m.data key) ∧
    (m.data = some [] → KV.List (mkKV b app bucket) s pre = (.ok [], s2)) := by
  have hchar : ∀ q key, mapGet (listPrefix m.data q) key =
      if goHasPrefix key q then dataGet m.data key else none := by
    intro q key
    cases m.data with
    | none => simp [listPrefix, dataGet, mapGet]
    | some d => simp [listPrefix, dataGet, mapGet_filterPrefix]
  refine ⟨by simp only [KV.List, hg], hchar pre, ?_, ?_⟩
  · intro key
    simpa [goHasPrefix_nil] using hchar [] key
  · intro hempty
    simp only [KV.List, hg, hempty, listPrefix, filterPrefix]

/-- Witness for C3: a bucket holding `{[97] ↦ [98], [99] ↦ [100]}`; listing
with prefix `[97]` returns exactly the `[97]` entry. -/
theorem list_prefix_correct_witness :
    KV.List (mkKV memBackend [] []) (some ⟨[], [], some [([97], [98]), ([99], [100])]⟩) [97]
      = (.ok [([97], [98])], some ⟨[], [], some [([97], [98]), ([99], [100])]⟩) :=
  (list_prefix_correct (Option ConfigMap) memBackend [] [] [97]
    (some ⟨[], [], some [([97], [98]), ([99], [100])]⟩)
    (some ⟨[], [], some [([97], [98]), ([99], [100])]⟩)
    ⟨[], [], some [([97], [98]), ([99], [100])]⟩ rfl).1

/-- Claim C4: `New` against an absent record succeeds and the created record
has name `bucket`, exactly the three labels `BUCKET ↦ bucket`, `APP ↦ app`,
`OWNER ↦ "K8S-KV"`, and an empty data mapping. -/
theorem new_absent_creates (app bucket : GoStr) :
    New memBackend app bucket none
      = (.ok (mkKV memBackend app bucket), some (freshCM app bucket)) ∧
    (freshCM app bucket).name = bucket ∧
    (freshCM app bucket).data = some [] ∧
    mapGet (freshCM app bucket).labels strBUCKET = some bucket ∧
    mapGet (freshCM app bucket).labels strAPP = some app ∧
    mapGet (freshCM app bucket).labels strOWNER = some strK8SKV ∧
    (freshCM app bucket).labels.length = 3 :=
  ⟨rfl, rfl, rfl, rfl, rfl, rfl, rfl⟩

/-- Claim C5: `Delete` of a key absent from the resolved record succeeds over
the faithful backend and writes back a record identical to the resolved one
(same name, labels, and every entry). -/
theorem delete_absent_idempotent (app bucket key : GoStr) (s s2 : Option ConfigMap)
    (m : ConfigMap)
    (hg : (mkKV memBackend app bucket).getMap s = (.ok m, s2))
    (hk : dataGet m.data key = none) :
    KV.Delete (mkKV memBackend app bucket) s key = (.ok (), some m) := by
  have hdel : dataDel m.data key = m.data := by
    cases hm : m.data with
    | none => simp [dataDel]
    | some d => simp [dataDel, mapDel_of_absent d key (by simpa [dataGet, hm] using hk)]
  simp only [KV.Delete, hg, hdel, KV.saveMap]
  simp [mkKV, memBackend]

/-- Witness for C5: bucket `{[97] ↦ [98]}`, deleting absent key `[99]` writes
the record back unchanged. -/
theorem delete_absent_idempotent_witness :
    KV.Delete (mkKV memBackend [] []) (some ⟨[], [([65], [66])], some [([97], [98])]⟩) [99]
      = (.ok (), some ⟨[], [([65], [66])], some [([97], [98])]⟩) :=
  delete_absent_idempotent [] [] [99]
    (some ⟨[], [([65], [66])], some [([97], [98])]⟩)
    (some ⟨[], [([65], [66])], some [([97], [98])]⟩)
    ⟨[], [([65], [66])], some [([97], [98])]⟩ rfl rfl

/-- Claim C6: `Put` sets `data[key] = value` in the resolved record (silently
overwriting), writes the whole record back (name and labels unchanged), and
leaves every other entry unchanged. -/
theorem put_overwrites_frame (app bucket key value : GoStr) (s s2 : Option ConfigMap)
    (m : ConfigMap) (d : GoMap)
    (hg : (mkKV memBackend app bucket).getMap s = (.ok m, s2))
    (hd : m.data = some d) :
    KV.Put (mkKV memBackend app bucket) s key value =
      (.ok (), some { m with data := some (mapSet d key value) }) ∧
    mapGet (mapSet d key value) key = some value ∧
    (∀ k2, k2 ≠ key → mapGet (mapSet d key value) k2 = mapGet d k2) := by
  refine ⟨?_, mapGet_mapSet_self d key value, fun k2 h => mapGet_mapSet_ne d key value k2 h⟩
  simp only [KV.Put, hg, hd, KV.saveMap]
  simp [mkKV, memBackend]

/-- Witness for C6: the spec's example, in bytes — from
`{"a" ↦ "a-val", "b" ↦ "b-val"}`, `Put("b", "updated")` yields
`{"a" ↦ "a-val", "b" ↦ "updated"}`. -/
theorem put_overwrites_frame_witness :
    KV.Put (mkKV memBackend [] [])
        (some ⟨[], [], some [([97], [97, 45, 118, 97, 108]), ([98], [98, 45, 118, 97, 108])]⟩)
        [98] [117, 112, 100, 97, 116, 101, 100]
      = (.ok (), some ⟨[], [],
          some [([97], [97, 45, 118, 97, 108]), ([98], [117, 112, 100, 97, 116, 101, 100])]⟩) :=
  (put_overwrites_frame [] [] [98] [117, 112, 100, 97, 116, 101, 100]
    (some ⟨[], [], some [([97], [97, 45, 118, 97, 108]), ([98], [98, 45, 118, 97, 108])]⟩)
    (some ⟨[], [], some [([97], [97, 45, 118, 97, 108]), ([98], [98, 45, 118, 97, 108])]⟩)
    ⟨[], [], some [([97], [97, 45, 118, 97, 108]), ([98], [98, 45, 118, 97, 108])]⟩
    [([97], [97, 45, 118, 97, 108]), ([98], [98, 45, 118, 97, 108])] rfl rfl).1

/-- Claim C7: over the scripted backend, a fetch failure other than the
not-found condition is propagated verbatim by resolve-or-create with the
backend state untouched (so the create counter shows no create call), and
`New` fails exactly when the fetch/create round-trip fails for a reason other
than not-found: it succeeds on a found record, succeeds when fetch reports
not-found and create succeeds (the not-found condition is not surfaced), and
fails with the create error when the create fails. -/
theorem fetch_error_propagation (app bucket : GoStr) (code n : Nat) (cm cmc : ConfigMap) :
    (mkKV scriptedBackend app bucket).getMap ⟨.error (.backendOther code), .ok cmc, n⟩
      = (.error (.backendOther code), ⟨.error (.backendOther code), .ok cmc, n⟩) ∧
    New scriptedBackend app bucket ⟨.error (.backendOther code), .ok cmc, n⟩
      = (.error (.backendOther code), ⟨.error (.backendOther code), .ok cmc, n⟩) ∧
    (New scriptedBackend app bucket ⟨.ok cm, .ok cmc, n⟩).1
      = .ok (mkKV scriptedBackend app bucket) ∧
    (New scriptedBackend app bucket ⟨.error .backendNotFound, .ok cmc, n⟩).1
      = .ok (mkKV scriptedBackend app bucket) ∧
    (New scriptedBackend app bucket ⟨.error .backendNotFound, .error (.backendOther code), n⟩).1
      = .error (.backendOther code) := by
  obtain ⟨nm, l, dat⟩ := cm
  refine ⟨rfl, rfl, ?_, rfl, rfl⟩
  cases dat <;> rfl

/-- Claim C8: `Teardown` deletes the backing record (the backend state
becomes absent), and on that absent state any `Get` fails with `ErrNotFound`
for every key — in particular keys present before the teardown — while a
`Put` recreates the freshly-labelled empty bucket holding only the new
entry, exactly as on a newly constructed instance. -/
theorem teardown_then_reuse (app bucket key value : GoStr) (s : Option ConfigMap) :
    KV.Teardown (mkKV memBackend app bucket) s = (.ok (), none) ∧
    KV.Get (mkKV memBackend app bucket) none key
      = (.error .errNotFound, some (freshCM app bucket)) ∧
    KV.Put (mkKV memBackend app bucket) none key value
      = (.ok (), some { freshCM app bucket with data := some [(key, value)] }) :=
  ⟨rfl, rfl, rfl⟩

/-- Claim C9: when fetch reports not-found and the backend's create returns a
record whose data mapping is nil, resolve-or-create returns that record
without normalizing (the nil map reaches `Put`, whose assignment is a
runtime panic, not an error return), while on the fetch-found path the
resolved record always carries an initialized data mapping. -/
theorem create_nil_data_put_panics (app bucket key value nm : GoStr) (l : GoMap) (n : Nat) :
    (mkKV scriptedBackend app bucket).getMap
        ⟨.error .backendNotFound, .ok ⟨nm, l, none⟩, n⟩
      = (.ok ⟨nm, l, none⟩, ⟨.error .backendNotFound, .ok ⟨nm, l, none⟩, n + 1⟩) ∧
    KV.Put (mkKV scriptedBackend app bucket)
        ⟨.error .backendNotFound, .ok ⟨nm, l, none⟩, n⟩ key value
      = (.nilMapPanic, ⟨.error .backendNotFound, .ok ⟨nm, l, none⟩, n + 1⟩) ∧
    (∀ (cr : Res ConfigMap) (k2 : Nat) (nm2 : GoStr) (l2 dd : GoMap),
      (mkKV scriptedBackend app bucket).getMap ⟨.ok ⟨nm2, l2, some dd⟩, cr, k2⟩
        = (.ok ⟨nm2, l2, some dd⟩, ⟨.ok ⟨nm2, l2, some dd⟩, cr, k2⟩) ∧
      (mkKV scriptedBackend app bucket).getMap ⟨.ok ⟨nm2, l2, none⟩, cr, k2⟩
        = (.ok ⟨nm2, l2, some []⟩, ⟨.ok ⟨nm2, l2, none⟩, cr, k2⟩)) :=
  ⟨rfl, rfl, fun _ _ _ _ _ => ⟨rfl, rfl⟩⟩

/-- Claim C10: the lock makes each `Put`'s fetch-mutate-write sequence atomic,
so a concurrent pair of `Put`s on distinct keys is observationally one of the
two sequential orders; in either order (this statement covers both, the key
pair being arbitrary) both writes survive: the final record maps each key to
its written value. -/
theorem concurrent_puts_serialize (app bucket k1 v1 k2 v2 : GoStr) (s : Option ConfigMap)
    (hne : k1 ≠ k2) :
    (KV.Put (mkKV memBackend app bucket) s k1 v1).1 = .ok () ∧
    (KV.Put (mkKV memBackend app bucket)
        (KV.Put (mkKV memBackend app bucket) s k1 v1).2 k2 v2).1 = .ok () ∧
    ∃ cm, (KV.Put (mkKV memBackend app bucket)
        (KV.Put (mkKV memBackend app bucket) s k1 v1).2 k2 v2).2 = some cm ∧
      dataGet cm.data k1 = some v1 ∧ dataGet cm.data k2 = some v2 := by
  obtain ⟨m, d, hd, hn, hg1, hput1⟩ := put_memBackend app bucket k1 v1 s
  have hfound := getMap_memBackend_found app bucket m.name m.labels (mapSet d k1 v1) hn
  have hput2 : KV.Put (mkKV memBackend app bucket)
      (some { m with data := some (mapSet d k1 v1) }) k2 v2
      = (.ok (), some ⟨m.name, m.labels, some (mapSet (mapSet d k1 v1) k2 v2)⟩) := by
    simp only [KV.Put, hfound, KV.saveMap]
    simp [mkKV, memBackend]
  refine ⟨by simp [hput1], by simp [hput1, hput2], ?_⟩
  refine ⟨⟨m.name, m.labels, some (mapSet (mapSet d k1 v1) k2 v2)⟩,
    by simp [hput1, hput2], ?_, ?_⟩
  · simp [dataGet, mapGet_mapSet_ne (mapSet d k1 v1) k2 v2 k1 hne, mapGet_mapSet_self]
  · simp [dataGet, mapGet_mapSet_self]

/-- Witness for C10: starting from the empty store, putting `[97] ↦ [1]` then
`[98] ↦ [2]` leaves both entries in the final record. -/
theorem concurrent_puts_serialize_witness :
    ∃ cm, (KV.Put (mkKV memBackend [] [])
        (KV.Put (mkKV memBackend [] []) none [97] [1]).2 [98] [2]).2 = some cm ∧
      dataGet cm.data [97] = some [1] ∧ dataGet cm.data [98] = some [2] :=
  (concurrent_puts_serialize [] [] [97] [1] [98] [2] none (by decide)).2.2
